import Mathlib

/-!
# unlatex-js: the wrappers of `src/main.js`

`src/main.js` exports three functions, each a thin call into a library that the
repository imports and does not contain:

* `latexFormat` computes a range start from the position of the text
  `\begin{document}` and calls `Prettier.format`;
* `latexParse` calls the unified-latex `parse`;
* `latexJParse` calls `JSON.stringify` on the result of `parse`.

The imported functions (`Prettier.format`, `parse`, `JSON.stringify`) and the
plugin object are parameters of the embedding. A JavaScript string is the list
of its UTF-16 code units, so that an offset in the list is an offset of the
JavaScript string. A call that throws is an `Except.error`.
-/

set_option autoImplicit false

namespace Unlatex

/-! ## Data model -/

/-- A JavaScript string: the sequence of its UTF-16 code units. -/
abbrev JSString := List Nat

/-- The message of a thrown JavaScript error. -/
abbrev JSError := String

/-- The text matched by the regular expression literal of `main.js` line 18,
`\begin{document}`: a backslash, `begin`, an opening brace, `document`, a
closing brace. None of the sixteen characters is a regular expression operator
there (the braces do not form a quantifier), so the expression matches exactly
this text. -/
def beginDocument : JSString :=
  [92, 98, 101, 103, 105, 110, 123, 100, 111, 99, 117, 109, 101, 110, 116, 125]

/-- The scan of `String.prototype.search` for a literal pattern: `source` is
what remains of the string from offset `offset` on; the answer is the first
offset at which the pattern matches, and `-1` when it matches nowhere. -/
def searchFrom (pattern : JSString) : JSString → Nat → Int
  | [], offset => if pattern.isPrefixOf [] then (offset : Int) else -1
  | c :: rest, offset =>
      if pattern.isPrefixOf (c :: rest) then (offset : Int)
      else searchFrom pattern rest (offset + 1)

/-- The call `source.search(pattern)` for a literal pattern. -/
def search (pattern source : JSString) : Int :=
  searchFrom pattern source 0

/-- The options object that `latexFormat` builds for `Prettier.format`
(`main.js` lines 22 to 29); `P` is the type of a Prettier plugin. -/
structure PrettierOptions (P : Type) where
  printWidth : Int
  useTabs : Bool
  tabWidth : Int
  rangeStart : Int
  parser : String
  plugins : List P

/-- The type of `Prettier.format`: source text and options to formatted text,
or a thrown error. -/
abbrev PrettierFormat (P : Type) := JSString → PrettierOptions P → Except JSError JSString

/-! ## `latexFormat` -/

/-- Lines 18 to 21 of `main.js`: the value of `start` when the options object
is built. -/
def latexFormatStart (source : JSString) (document_only : Bool) : Int :=
  let start := search beginDocument source
  if !document_only || decide (start < 0) then 0 else start

/-- Lines 22 to 29 of `main.js`: the options object handed to
`Prettier.format`. -/
def latexFormatOptions {P : Type} (prettierPluginLatex : P) (source : JSString)
    (printWidth : Int) (useTabs : Bool) (tabWidth : Int) (document_only : Bool) :
    PrettierOptions P :=
  { printWidth := printWidth
    useTabs := useTabs
    tabWidth := tabWidth
    rangeStart := latexFormatStart source document_only
    parser := "latex-parser"
    plugins := [prettierPluginLatex] }

/-- The function `latexFormat` of `main.js` (lines 17 to 30) with every
argument given. `format` is `Prettier.format`. -/
def latexFormat {P : Type} (format : PrettierFormat P) (prettierPluginLatex : P)
    (source : JSString) (printWidth : Int) (useTabs : Bool) (tabWidth : Int)
    (document_only : Bool) : Except JSError JSString :=
  format source
    (latexFormatOptions prettierPluginLatex source printWidth useTabs tabWidth document_only)

/-- The parameter list of `latexFormat` (line 17): an optional argument that is
omitted (or `undefined`), here `none`, takes its default value. -/
def latexFormatOptional {P : Type} (format : PrettierFormat P) (prettierPluginLatex : P)
    (source : JSString) (printWidth : Option Int) (useTabs : Option Bool)
    (tabWidth : Option Int) (document_only : Option Bool) : Except JSError JSString :=
  latexFormat format prettierPluginLatex source
    (printWidth.getD 80) (useTabs.getD false) (tabWidth.getD 2) (document_only.getD false)

/-! ## `latexParse` and `latexJParse` -/

/-- The function `latexParse` of `main.js` (lines 39 to 41); `parse` is the
unified-latex parser and `A` the type of its syntax trees. -/
def latexParse {A : Type} (parse : JSString → Except JSError A) (source : JSString) :
    Except JSError A :=
  parse source

/-- The function `latexJParse` of `main.js` (lines 50 to 52): `parse(source)`
is evaluated first and `JSON.stringify` is applied to its value; `stringify` is
`JSON.stringify` and `J` the type of what it returns. -/
def latexJParse {A J : Type} (parse : JSString → Except JSError A)
    (stringify : A → Except JSError J) (source : JSString) : Except JSError J :=
  match parse source with
  | Except.error e => Except.error e
  | Except.ok ast => stringify ast

/-! ## The contract of the formatter

`Prettier.format` and the LaTeX plugin are imported by `main.js` and are not
part of the repository. What the specification says of the printer is stated
here as a property that a formatter may have. -/

/-- Modelled from the spec: the printer behind `Prettier.format`, which the
repository imports and does not contain. Section 4.4: "Output outside
`[rangeStart, rangeEnd]` is emitted verbatim from the original source
(byte-for-byte) rather than re-printed from the AST". Here for the part before
`rangeStart`, for calls with the parser name and plugin list that `latexFormat`
passes and a `rangeStart` that is an offset of the source. -/
def EmitsVerbatimBeforeRange {P : Type} (format : PrettierFormat P)
    (prettierPluginLatex : P) : Prop :=
  ∀ (source : JSString) (options : PrettierOptions P) (out : JSString),
    options.parser = "latex-parser" → options.plugins = [prettierPluginLatex] →
    0 ≤ options.rangeStart → options.rangeStart ≤ (source.length : Int) →
    format source options = Except.ok out →
    out.take options.rangeStart.toNat = source.take options.rangeStart.toNat

/-- Modelled from the spec: the printer behind `Prettier.format`, which the
repository imports and does not contain. Section 7: "always return a result for
any string input; only reject clearly invalid configuration", with the valid
configuration of section 3, `printWidth: int>0` and `tabWidth: int>0`. -/
def ReturnsOnValidOptions {P : Type} (format : PrettierFormat P)
    (prettierPluginLatex : P) : Prop :=
  ∀ (source : JSString) (options : PrettierOptions P),
    options.parser = "latex-parser" → options.plugins = [prettierPluginLatex] →
    0 < options.printWidth → 0 < options.tabWidth →
    0 ≤ options.rangeStart → options.rangeStart ≤ (source.length : Int) →
    ∃ out, format source options = Except.ok out

/-! ## Test data -/

/-- The code units of an ASCII text. -/
def ofAscii (text : String) : JSString :=
  text.toList.map Char.toNat

/-- A formatter that returns its input unchanged. -/
def echoFormat : PrettierFormat Unit :=
  fun source _ => Except.ok source

/-- A formatter that rejects a non-positive width, keeps the text before
`rangeStart` and removes the spaces from `rangeStart` on. -/
def squeezeFormat : PrettierFormat Unit :=
  fun source options =>
    if options.printWidth ≤ 0 ∨ options.tabWidth ≤ 0 then
      Except.error "invalid option"
    else
      Except.ok (source.take options.rangeStart.toNat ++
        (source.drop options.rangeStart.toNat).filter (fun c => c != 32))

example : beginDocument = ofAscii "\\begin\x7bdocument\x7d" := by decide
example : search beginDocument (ofAscii "ab\\begin\x7bdocument\x7d") = 2 := by decide
example : search beginDocument (ofAscii "ab\\begin\x7bdocumen") = -1 := by decide
example : latexFormatStart (ofAscii "ab\\begin\x7bdocument\x7d") true = 2 := by decide
example : latexFormatStart (ofAscii "ab\\begin\x7bdocument\x7d") false = 0 := by decide

/-! ## The scan for the marker -/

/-- The scan either reports `-1`, and the pattern matches at no offset, or
reports `offset + k` for the least `k` at which the pattern matches. -/
theorem searchFrom_spec (pattern : JSString) (source : JSString) (offset : Nat) :
    (searchFrom pattern source offset = -1 ∧ ∀ j, ¬ pattern <+: source.drop j) ∨
    (∃ k, k ≤ source.length ∧ searchFrom pattern source offset = ((offset + k : Nat) : Int) ∧
      pattern <+: source.drop k ∧ ∀ j, j < k → ¬ pattern <+: source.drop j) := by
  induction source generalizing offset with
  | nil =>
    by_cases h : pattern <+: ([] : JSString)
    · right
      refine ⟨0, le_refl _, ?_, by simpa using h, fun j hj => absurd hj (Nat.not_lt_zero j)⟩
      simp [searchFrom, List.isPrefixOf_iff_prefix.mpr h]
    · left
      refine ⟨?_, fun j => by simpa using h⟩
      have hb : pattern.isPrefixOf ([] : JSString) = false := by
        rw [Bool.eq_false_iff]
        exact fun hp => h (List.isPrefixOf_iff_prefix.mp hp)
      simp [searchFrom, hb]
  | cons c rest ih =>
    by_cases h : pattern <+: c :: rest
    · right
      refine ⟨0, Nat.zero_le _, ?_, by simpa using h, fun j hj => absurd hj (Nat.not_lt_zero j)⟩
      simp [searchFrom, List.isPrefixOf_iff_prefix.mpr h]
    · have hb : pattern.isPrefixOf (c :: rest) = false := by
        rw [Bool.eq_false_iff]
        exact fun hp => h (List.isPrefixOf_iff_prefix.mp hp)
      have hstep : searchFrom pattern (c :: rest) offset = searchFrom pattern rest (offset + 1) := by
        simp [searchFrom, hb]
      rcases ih (offset + 1) with ⟨hneg, hnone⟩ | ⟨k, hk, hval, hat, hmin⟩
      · left
        refine ⟨hstep.trans hneg, fun j => ?_⟩
        cases j with
        | zero => simpa using h
        | succ j => simpa using hnone j
      · right
        refine ⟨k + 1, by simpa using hk, ?_, by simpa using hat, fun j hj => ?_⟩
        · rw [hstep, hval]
          congr 1
          omega
        · cases j with
          | zero => simpa using h
          | succ j => simpa using hmin j (by omega)

/-- A text contains the pattern exactly when the pattern matches at some
offset. -/
theorem infix_iff_exists_drop (pattern source : JSString) :
    pattern <:+: source ↔ ∃ j, pattern <+: source.drop j := by
  constructor
  · rintro ⟨a, b, rfl⟩
    exact ⟨a.length, b, by simp⟩
  · rintro ⟨j, t, ht⟩
    refine ⟨source.take j, t, ?_⟩
    rw [List.append_assoc, ht, List.take_append_drop]

/-- The sixteen characters at offset `j` are the marker exactly when the marker
is a leading part of the text from `j` on. -/
theorem take_drop_eq_beginDocument_iff (source : JSString) (j : Nat) :
    (source.drop j).take 16 = beginDocument ↔ beginDocument <+: source.drop j := by
  rw [List.prefix_iff_eq_take]
  exact eq_comm

/-! ## The range start -/

/-- Without `document_only` the range start is `0`. -/
theorem latexFormatStart_false (source : JSString) : latexFormatStart source false = 0 := by
  simp [latexFormatStart]

/-- With `document_only` and no marker in the text the range start is `0`. -/
theorem latexFormatStart_absent (source : JSString) (h : ¬ beginDocument <:+: source) :
    latexFormatStart source true = 0 := by
  rcases searchFrom_spec beginDocument source 0 with ⟨hneg, _⟩ | ⟨k, _, _, hat, _⟩
  · simp [latexFormatStart, search, hneg]
  · exact absurd ((infix_iff_exists_drop _ _).mpr ⟨k, hat⟩) h

/-- With `document_only` and a marker in the text the range start is the least
offset at which the marker stands. -/
theorem latexFormatStart_present (source : JSString) (h : beginDocument <:+: source) :
    ∃ k : Nat, latexFormatStart source true = (k : Int) ∧ k + 16 ≤ source.length ∧
      beginDocument <+: source.drop k ∧ ∀ j, j < k → ¬ beginDocument <+: source.drop j := by
  rcases searchFrom_spec beginDocument source 0 with ⟨_, hnone⟩ | ⟨k, _, hval, hat, hmin⟩
  · obtain ⟨j, hj⟩ := (infix_iff_exists_drop _ _).mp h
    exact absurd hj (hnone j)
  · refine ⟨k, ?_, ?_, hat, hmin⟩
    · have hnn : ¬ ((k : Int) < 0) := by omega
      simp [latexFormatStart, search, hval, hnn]
    · have hlen := hat.length_le
      simp only [List.length_drop] at hlen
      have h16 : beginDocument.length = 16 := rfl
      omega

/-- The least offset of a match is unique. -/
theorem first_occurrence_unique (source : JSString) (k k' : Nat)
    (hk : beginDocument <+: source.drop k)
    (hmin : ∀ j, j < k → ¬ beginDocument <+: source.drop j)
    (hk' : beginDocument <+: source.drop k')
    (hmin' : ∀ j, j < k' → ¬ beginDocument <+: source.drop j) : k = k' := by
  rcases Nat.lt_trichotomy k k' with hlt | heq | hgt
  · exact absurd hk (hmin' k hlt)
  · exact heq
  · exact absurd hk' (hmin k' hgt)

/-! ## Claims on `latexFormat` -/

/-- C1: fallback of document-only mode. For a source text that does not contain
the marker `\begin{document}`, `latexFormat` with `document_only = true`
returns what it returns with `document_only = false`: both calls hand the same
options, with `rangeStart = 0`, to the formatter. -/
theorem latexFormat_document_only_fallback {P : Type} (format : PrettierFormat P)
    (prettierPluginLatex : P) (source : JSString) (printWidth : Int) (useTabs : Bool)
    (tabWidth : Int) (h : ¬ beginDocument <:+: source) :
    latexFormat format prettierPluginLatex source printWidth useTabs tabWidth true =
      latexFormat format prettierPluginLatex source printWidth useTabs tabWidth false ∧
    latexFormatOptions prettierPluginLatex source printWidth useTabs tabWidth true =
      latexFormatOptions prettierPluginLatex source printWidth useTabs tabWidth false ∧
    (latexFormatOptions prettierPluginLatex source printWidth useTabs tabWidth true).rangeStart
      = 0 := by
  have hopts : latexFormatOptions prettierPluginLatex source printWidth useTabs tabWidth true =
      latexFormatOptions prettierPluginLatex source printWidth useTabs tabWidth false := by
    simp [latexFormatOptions, latexFormatStart_absent source h, latexFormatStart_false]
  refine ⟨?_, hopts, ?_⟩
  · simp only [latexFormat, hopts]
  · simp [latexFormatOptions, latexFormatStart_absent source h]

/-- C2: partial mode start offset. For a source text that contains the marker
`\begin{document}`, `latexFormat` with `document_only = true` calls the
formatter on the source with `rangeStart = k`, where `k` is the least offset
such that the sixteen characters of the source from `k` on are the marker; the
other options are as given. -/
theorem latexFormat_rangeStart_first_marker {P : Type} (format : PrettierFormat P)
    (prettierPluginLatex : P) (source : JSString) (printWidth : Int) (useTabs : Bool)
    (tabWidth : Int) (h : beginDocument <:+: source) :
    ∃ k : Nat,
      latexFormat format prettierPluginLatex source printWidth useTabs tabWidth true =
        format source
          { printWidth := printWidth, useTabs := useTabs, tabWidth := tabWidth,
            rangeStart := (k : Int), parser := "latex-parser",
            plugins := [prettierPluginLatex] } ∧
      (source.drop k).take 16 = beginDocument ∧
      ∀ j, j < k → (source.drop j).take 16 ≠ beginDocument := by
  obtain ⟨k, hstart, _, hat, hmin⟩ := latexFormatStart_present source h
  refine ⟨k, ?_, (take_drop_eq_beginDocument_iff source k).mpr hat, fun j hj hj' => ?_⟩
  · simp [latexFormat, latexFormatOptions, hstart]
  · exact hmin j hj ((take_drop_eq_beginDocument_iff source j).mp hj')

/-- C9: full-document mode ignores the marker. With `document_only = false`
the formatter is called on the source with the given `printWidth`, `useTabs`
and `tabWidth`, `rangeStart = 0`, the parser name `latex-parser` and the LaTeX
plugin as only plugin, whatever the source contains; and for either value of
`document_only` the call differs from that one in `rangeStart` at most. -/
theorem latexFormat_full_document_call {P : Type} (format : PrettierFormat P)
    (prettierPluginLatex : P) (source : JSString) (printWidth : Int) (useTabs : Bool)
    (tabWidth : Int) :
    latexFormat format prettierPluginLatex source printWidth useTabs tabWidth false =
      format source
        { printWidth := printWidth, useTabs := useTabs, tabWidth := tabWidth,
          rangeStart := 0, parser := "latex-parser", plugins := [prettierPluginLatex] } ∧
    ∀ document_only : Bool,
      latexFormat format prettierPluginLatex source printWidth useTabs tabWidth document_only =
        format source
          { printWidth := printWidth, useTabs := useTabs, tabWidth := tabWidth,
            rangeStart := (latexFormatOptions prettierPluginLatex source printWidth useTabs
              tabWidth document_only).rangeStart,
            parser := "latex-parser", plugins := [prettierPluginLatex] } := by
  refine ⟨?_, fun document_only => rfl⟩
  simp [latexFormat, latexFormatOptions, latexFormatStart_false]

/-- C10: the range start handed to the formatter is a valid offset. For every
source text and either value of `document_only`, `0 ≤ rangeStart ≤ length`
(so the value `-1` of a failed search is never passed on), and a positive
`rangeStart` occurs only with `document_only = true` and leaves room for the
sixteen characters of the marker. -/
theorem latexFormat_rangeStart_valid {P : Type} (prettierPluginLatex : P)
    (source : JSString) (printWidth : Int) (useTabs : Bool) (tabWidth : Int)
    (document_only : Bool) :
    0 ≤ (latexFormatOptions prettierPluginLatex source printWidth useTabs tabWidth
        document_only).rangeStart ∧
    (latexFormatOptions prettierPluginLatex source printWidth useTabs tabWidth
        document_only).rangeStart ≤ (source.length : Int) ∧
    (0 < (latexFormatOptions prettierPluginLatex source printWidth useTabs tabWidth
        document_only).rangeStart →
      document_only = true ∧
      (latexFormatOptions prettierPluginLatex source printWidth useTabs tabWidth
        document_only).rangeStart + 16 ≤ (source.length : Int)) := by
  show 0 ≤ latexFormatStart source document_only ∧
    latexFormatStart source document_only ≤ (source.length : Int) ∧
    (0 < latexFormatStart source document_only →
      document_only = true ∧ latexFormatStart source document_only + 16 ≤ (source.length : Int))
  cases document_only with
  | false =>
    rw [latexFormatStart_false]
    exact ⟨le_refl _, by omega, fun hpos => absurd hpos (lt_irrefl _)⟩
  | true =>
    by_cases h : beginDocument <:+: source
    · obtain ⟨k, hstart, hroom, _, _⟩ := latexFormatStart_present source h
      rw [hstart]
      exact ⟨by omega, by omega, fun _ => ⟨rfl, by omega⟩⟩
    · rw [latexFormatStart_absent source h]
      exact ⟨le_refl _, by omega, fun hpos => absurd hpos (lt_irrefl _)⟩

/-- C6: default options. `latexFormat` with every optional argument omitted is
`latexFormat` with `printWidth = 80`, `useTabs = false`, `tabWidth = 2` and
`document_only = false`, and omitting a trailing part of the optional arguments
is passing these values for the omitted ones. -/
theorem latexFormat_default_arguments {P : Type} (format : PrettierFormat P)
    (prettierPluginLatex : P) (source : JSString) :
    latexFormatOptional format prettierPluginLatex source none none none none =
      latexFormat format prettierPluginLatex source 80 false 2 false ∧
    (∀ printWidth : Int,
      latexFormatOptional format prettierPluginLatex source (some printWidth) none none none =
        latexFormat format prettierPluginLatex source printWidth false 2 false) ∧
    (∀ (printWidth : Int) (useTabs : Bool),
      latexFormatOptional format prettierPluginLatex source (some printWidth) (some useTabs)
          none none =
        latexFormat format prettierPluginLatex source printWidth useTabs 2 false) ∧
    (∀ (printWidth : Int) (useTabs : Bool) (tabWidth : Int),
      latexFormatOptional format prettierPluginLatex source (some printWidth) (some useTabs)
          (some tabWidth) none =
        latexFormat format prettierPluginLatex source printWidth useTabs tabWidth false) ∧
    (∀ (printWidth : Int) (useTabs : Bool) (tabWidth : Int) (document_only : Bool),
      latexFormatOptional format prettierPluginLatex source (some printWidth) (some useTabs)
          (some tabWidth) (some document_only) =
        latexFormat format prettierPluginLatex source printWidth useTabs tabWidth
          document_only) :=
  ⟨rfl, fun _ => rfl, fun _ _ => rfl, fun _ _ _ => rfl, fun _ _ _ _ => rfl⟩

/-- C3: partial-range preservation. Let the formatter emit the text before
`rangeStart` verbatim, as section 4.4 of the specification says of the printer.
For a source text whose first marker `\begin{document}` stands at offset `k`,
a text returned by `latexFormat` with `document_only = true` begins with the
first `k` characters of the source, unchanged; and when the formatter returns on
every valid configuration, `latexFormat` with positive `printWidth` and
`tabWidth` does return such a text. -/
theorem latexFormat_preserves_preamble {P : Type} (format : PrettierFormat P)
    (prettierPluginLatex : P) (source : JSString) (k : Nat) (printWidth : Int)
    (useTabs : Bool) (tabWidth : Int)
    (hformat : EmitsVerbatimBeforeRange format prettierPluginLatex)
    (hk : (source.drop k).take 16 = beginDocument)
    (hmin : ∀ j, j < k → (source.drop j).take 16 ≠ beginDocument) :
    (∀ out, latexFormat format prettierPluginLatex source printWidth useTabs tabWidth true =
        Except.ok out → out.take k = source.take k) ∧
    (ReturnsOnValidOptions format prettierPluginLatex → 0 < printWidth → 0 < tabWidth →
      ∃ out, latexFormat format prettierPluginLatex source printWidth useTabs tabWidth true =
        Except.ok out ∧ out.take k = source.take k) := by
  have hat : beginDocument <+: source.drop k := (take_drop_eq_beginDocument_iff source k).mp hk
  have hmin' : ∀ j, j < k → ¬ beginDocument <+: source.drop j :=
    fun j hj hj' => hmin j hj ((take_drop_eq_beginDocument_iff source j).mpr hj')
  obtain ⟨k', hstart, hroom, hat', hmin''⟩ :=
    latexFormatStart_present source ((infix_iff_exists_drop _ _).mpr ⟨k, hat⟩)
  have hkk : k' = k := first_occurrence_unique source k' k hat' hmin'' hat hmin'
  subst hkk
  have hrange : (latexFormatOptions prettierPluginLatex source printWidth useTabs tabWidth
      true).rangeStart = (k' : Int) := hstart
  have hkeep : ∀ out, latexFormat format prettierPluginLatex source printWidth useTabs tabWidth
      true = Except.ok out → out.take k' = source.take k' := by
    intro out hout
    have := hformat source
      (latexFormatOptions prettierPluginLatex source printWidth useTabs tabWidth true) out
      rfl rfl (by rw [hrange]; omega) (by rw [hrange]; omega) hout
    rw [hrange] at this
    simpa using this
  refine ⟨hkeep, fun hreturns hpw htw => ?_⟩
  obtain ⟨out, hout⟩ := hreturns source
    (latexFormatOptions prettierPluginLatex source printWidth useTabs tabWidth true)
    rfl rfl hpw htw (by rw [hrange]; omega) (by rw [hrange]; omega)
  exact ⟨out, hout, hkeep out hout⟩

/-- C7 as stated fails: with `printWidth = 0`, and also with `tabWidth = 0`,
`latexFormat` throws nothing of its own; it calls the formatter and returns the
text that the formatter returns. -/
theorem latexFormat_nonpositive_width_reaches_formatter :
    ((0 : Int) ≤ 0 ∧
      latexFormat echoFormat () (ofAscii "a  b") 0 false 2 false = Except.ok (ofAscii "a  b") ∧
      latexFormat echoFormat () (ofAscii "a  b") 80 false 0 false = Except.ok (ofAscii "a  b")) ∧
    ¬ ∀ (format : PrettierFormat Unit) (source : JSString) (printWidth : Int) (useTabs : Bool)
        (tabWidth : Int) (document_only : Bool), printWidth ≤ 0 ∨ tabWidth ≤ 0 →
        ∃ e, latexFormat format () source printWidth useTabs tabWidth document_only =
          Except.error e := by
  refine ⟨⟨le_refl _, rfl, rfl⟩, fun hall => ?_⟩
  obtain ⟨e, he⟩ := hall echoFormat (ofAscii "a  b") 0 false 2 false (Or.inl (le_refl _))
  simp [latexFormat, echoFormat] at he

/-- C7 amended: `latexFormat` checks no option. For every `printWidth` and
`tabWidth`, the non-positive ones included, it hands both values unchanged to
the formatter together with the source, and its outcome is the outcome of that
call: it fails exactly when the formatter fails, with the same error. -/
theorem latexFormat_hands_widths_to_formatter {P : Type} (format : PrettierFormat P)
    (prettierPluginLatex : P) (source : JSString) (printWidth : Int) (useTabs : Bool)
    (tabWidth : Int) (document_only : Bool) :
    (latexFormatOptions prettierPluginLatex source printWidth useTabs tabWidth
        document_only).printWidth = printWidth ∧
    (latexFormatOptions prettierPluginLatex source printWidth useTabs tabWidth
        document_only).tabWidth = tabWidth ∧
    latexFormat format prettierPluginLatex source printWidth useTabs tabWidth document_only =
      format source (latexFormatOptions prettierPluginLatex source printWidth useTabs tabWidth
        document_only) ∧
    ∀ e, latexFormat format prettierPluginLatex source printWidth useTabs tabWidth
          document_only = Except.error e ↔
        format source (latexFormatOptions prettierPluginLatex source printWidth useTabs
          tabWidth document_only) = Except.error e :=
  ⟨rfl, rfl, rfl, fun _ => Iff.rfl⟩

/-! ## Claims on `latexParse` and `latexJParse` -/

/-- C5: serialize is parse followed by JSON conversion. `latexJParse` on a
source is `JSON.stringify` applied to the value that `latexParse` returns on the
same source, and it fails exactly when `latexParse` fails or the conversion of
the parsed value fails. -/
theorem latexJParse_eq_stringify_latexParse {A J : Type}
    (parse : JSString → Except JSError A) (stringify : A → Except JSError J)
    (source : JSString) :
    latexJParse parse stringify source = (latexParse parse source).bind stringify ∧
    (∀ ast, latexParse parse source = Except.ok ast →
      latexJParse parse stringify source = stringify ast) ∧
    ((∃ e, latexJParse parse stringify source = Except.error e) ↔
      ((∃ e, latexParse parse source = Except.error e) ∨
        ∃ ast e, latexParse parse source = Except.ok ast ∧ stringify ast = Except.error e)) := by
  unfold latexJParse latexParse
  cases hp : parse source with
  | error e => simp [Except.bind]
  | ok ast => simp [Except.bind]

/-! ## The claims at concrete inputs -/

/-- The test formatter `squeezeFormat` emits the text before `rangeStart`
verbatim. -/
theorem squeezeFormat_emitsVerbatim : EmitsVerbatimBeforeRange squeezeFormat () := by
  intro source options out _ _ h0 hlen hout
  unfold squeezeFormat at hout
  split at hout
  · cases hout
  · have hout' := Except.ok.inj hout
    have hle : options.rangeStart.toNat ≤ source.length := by omega
    rw [← hout', List.take_append_of_le_length (by simpa using hle), List.take_take]
    simp

/-- The test formatter `squeezeFormat` returns on every valid configuration. -/
theorem squeezeFormat_returns : ReturnsOnValidOptions squeezeFormat () := by
  intro source options _ _ hpw htw _ _
  have hvalid : ¬ (options.printWidth ≤ 0 ∨ options.tabWidth ≤ 0) := by omega
  refine ⟨source.take options.rangeStart.toNat ++
    (source.drop options.rangeStart.toNat).filter (fun c => c != 32), ?_⟩
  simp only [squeezeFormat, if_neg hvalid]

/-- C1 at the source `a  b`, which has no marker, with a formatter that depends
on `rangeStart`. -/
theorem latexFormat_document_only_fallback_witness :
    ¬ beginDocument <:+: ofAscii "a  b" ∧
    latexFormat squeezeFormat () (ofAscii "a  b") 80 false 2 true = Except.ok (ofAscii "ab") ∧
    latexFormat squeezeFormat () (ofAscii "a  b") 80 false 2 true =
      latexFormat squeezeFormat () (ofAscii "a  b") 80 false 2 false :=
  have habsent : ¬ beginDocument <:+: ofAscii "a  b" := by decide
  ⟨habsent, rfl,
    (latexFormat_document_only_fallback squeezeFormat () (ofAscii "a  b") 80 false 2 habsent).1⟩

/-- C2 at the source `a %\begin{document}\begin{document}`: the first marker,
inside a comment, stands at offset 3. -/
theorem latexFormat_rangeStart_first_marker_witness :
    beginDocument <:+: ofAscii "a %\\begin\x7bdocument\x7d\\begin\x7bdocument\x7d" ∧
    latexFormatStart (ofAscii "a %\\begin\x7bdocument\x7d\\begin\x7bdocument\x7d") true = 3 ∧
    ∃ k : Nat,
      latexFormat squeezeFormat ()
          (ofAscii "a %\\begin\x7bdocument\x7d\\begin\x7bdocument\x7d") 80 false 2 true =
        squeezeFormat (ofAscii "a %\\begin\x7bdocument\x7d\\begin\x7bdocument\x7d")
          { printWidth := 80, useTabs := false, tabWidth := 2, rangeStart := (k : Int),
            parser := "latex-parser", plugins := [()] } ∧
      ((ofAscii "a %\\begin\x7bdocument\x7d\\begin\x7bdocument\x7d").drop k).take 16 =
        beginDocument ∧
      ∀ j, j < k →
        ((ofAscii "a %\\begin\x7bdocument\x7d\\begin\x7bdocument\x7d").drop j).take 16 ≠
          beginDocument :=
  have hpresent :
      beginDocument <:+: ofAscii "a %\\begin\x7bdocument\x7d\\begin\x7bdocument\x7d" := by
    decide
  ⟨hpresent, by decide,
    latexFormat_rangeStart_first_marker squeezeFormat ()
      (ofAscii "a %\\begin\x7bdocument\x7d\\begin\x7bdocument\x7d") 80 false 2 hpresent⟩

/-- C3 at the source `a  b\begin{document} c d` with the test formatter: the
marker stands at offset 4, the four characters before it are returned
unchanged and the spaces after it are removed. -/
theorem latexFormat_preserves_preamble_witness :
    EmitsVerbatimBeforeRange squeezeFormat () ∧
    ((ofAscii "a  b\\begin\x7bdocument\x7d c d").drop 4).take 16 = beginDocument ∧
    latexFormat squeezeFormat () (ofAscii "a  b\\begin\x7bdocument\x7d c d") 80 false 2 true =
      Except.ok (ofAscii "a  b\\begin\x7bdocument\x7dcd") ∧
    ((∀ out,
        latexFormat squeezeFormat () (ofAscii "a  b\\begin\x7bdocument\x7d c d") 80 false 2
          true = Except.ok out →
        out.take 4 = (ofAscii "a  b\\begin\x7bdocument\x7d c d").take 4) ∧
      (ReturnsOnValidOptions squeezeFormat () → (0 : Int) < 80 → (0 : Int) < 2 →
        ∃ out,
          latexFormat squeezeFormat () (ofAscii "a  b\\begin\x7bdocument\x7d c d") 80 false 2
            true = Except.ok out ∧
          out.take 4 = (ofAscii "a  b\\begin\x7bdocument\x7d c d").take 4)) :=
  ⟨squeezeFormat_emitsVerbatim, by decide, rfl,
    latexFormat_preserves_preamble squeezeFormat ()
      (ofAscii "a  b\\begin\x7bdocument\x7d c d") 4 80 false 2 squeezeFormat_emitsVerbatim
      (by decide) (by intro j hj; interval_cases j <;> decide)⟩

end Unlatex
